import Mathlib

/-!
Verification development for the CNA-GURU request pipeline.

Shallow embedding of the security pipeline of
`code/lambdas/invoke-lambda/index.py` (with the near-identical copies in
`code/security/middleware.py` and
`code/streamlit-app/security/security_config.py`), together with theorems
settling the specification claims about it.

Modelling conventions:
* Python strings are Lean `String` (one `Char` per code point, matching
  Python's `len` and indexing).
* Python `datetime` instants are `Int` seconds; `timedelta(seconds=w)`
  comparisons become integer comparisons.
* `dict`-shaped AWS payloads become structures whose `Option` fields model
  key presence; absent intermediate keys that the code defaults to `{}` are
  collapsed into the innermost `Option` when the behaviour is identical.
* External collaborators (the Bedrock agent call and the S3 object store)
  are oracle parameters.
* Logging (`safe_log`, `print`) has no effect on any returned value and is
  dropped.
* Python truthiness tests on strings (`if x:`) are modelled as
  `x ≠ ""` / `Option.isSome` tests exactly where the code performs them.
-/

namespace CnaGuru

/-! ### Character classes of the Python regexes

`ALLOWED_CHARS_PATTERN = r'^[\w\s\-\.,\?!@#$%^&*()+=\[\]{}|\\:;"\x27<>\/]+$'`
(`index.py` line 43, `security_config.py` line 20).  `\w` is modelled as
ASCII alphanumeric or underscore, `\s` as Python's six ASCII whitespace
characters. -/

def isWordChar (c : Char) : Bool := c.isAlphanum || c = '_'

def isPySpace (c : Char) : Bool :=
  c = ' ' || c = '\t' || c = '\n' || c = '\r' || c = '\x0b' || c = '\x0c'

def punctChars : List Char :=
  ['-', '.', ',', '?', '!', '@', '#', '$', '%', '^', '&', '*', '(', ')', '+', '=',
   '[', ']', '\x7b', '\x7d', '|', '\\', ':', ';', '"', '\'', '<', '>', '/']

def allowedChar (c : Char) : Bool := isWordChar c || isPySpace c || punctChars.contains c

def MAX_INPUT_LENGTH : Nat := 1000

/-- Python `str.strip()`: drop leading and trailing whitespace. -/
def pyStrip (s : String) : String :=
  String.mk (((s.data.dropWhile isPySpace).reverse.dropWhile isPySpace).reverse)

/-- Embedding of `InputValidator.sanitize_input` (`index.py` lines 62-81): reject
oversized input, reject input not matching `^[allowed]+$` (which in
particular rejects the empty string, since the regex demands at least one
character), otherwise return the stripped input.  The `isinstance(str)`
check is enforced by the Lean type.  (`re.match` of this anchored pattern
succeeds exactly on a nonempty all-allowed string: the `$`-before-final-
newline case adds nothing because `\n` is itself in the class.) -/
def sanitize_input (s : String) : Option String :=
  if s.length > MAX_INPUT_LENGTH then none
  else if !s.data.isEmpty && s.data.all allowedChar then some (pyStrip s)
  else none

/-! ### QueryGuard: `InputValidator.validate_sql_query` -/

/-- Maximal runs of word characters: the matches of `re.findall(r"\b\w+\b", s)`.
First argument is the current run, reversed. -/
def tokenizeAux : List Char → List Char → List String
  | cur, [] => if cur.isEmpty then [] else [String.mk cur.reverse]
  | cur, c :: cs =>
    if isWordChar c then tokenizeAux (c :: cur) cs
    else if cur.isEmpty then tokenizeAux [] cs
    else String.mk cur.reverse :: tokenizeAux [] cs

def wordTokens (s : String) : List String := tokenizeAux [] s.data

def STOP_WORDS : List String := ["AND", "OR", "IN", "THE", "AS", "ON"]

def ALLOWED_SQL_KEYWORDS : List String :=
  ["SELECT", "FROM", "WHERE", "AND", "OR", "IN", "LIKE", "LIMIT", "ORDER",
   "BY", "ASC", "DESC", "GROUP", "HAVING", "JOIN"]

/-- Python `pat in s` (contiguous substring). -/
def containsSub (pat : List Char) : List Char → Bool
  | [] => pat.isEmpty
  | c :: cs => pat.isPrefixOf (c :: cs) || containsSub pat cs

/-- Python `str.upper()` (character-wise; the core `String.toUpper` is
byte-position based and does not reduce in the kernel, so it is redefined
over the character list). -/
def pyToUpper (s : String) : String := String.mk (s.data.map Char.toUpper)

/-- Embedding of `InputValidator.validate_sql_query` (`index.py` lines 83-108,
`security_config.py` lines 82-126): tokenize the upper-cased query, drop
the stopword set, require every remaining token to be an allow-listed SQL
keyword, and reject `;`, `--`, `/*`.  (The Python code collects the tokens
into a `set` before the subset test; deduplication does not change a
subset check, so a list `all` is used here.) -/
def validate_sql_query (query : String) : Bool :=
  if !(((wordTokens (pyToUpper query)).filter (fun w => !(STOP_WORDS.contains w))).all
      (fun w => ALLOWED_SQL_KEYWORDS.contains w)) then false
  else if containsSub ";".data query.data || containsSub "--".data query.data
       || containsSub "/*".data query.data then false
  else true

/-! ### `extract_sql_query` (`index.py` lines 442-465)

`re.search(r"(SELECT.*?)(?=\n\s*(?:Returned information|$))", s, DOTALL | IGNORECASE)`.
The search succeeds iff the text has a case-insensitive `SELECT` occurrence
and, at or after six characters past the first such occurrence, a position
satisfying the lookahead; the non-greedy `.*?` takes the earliest such
position.  (If the leftmost `SELECT` start admits no lookahead position to
its right then no later start can either, since any position valid for a
later start is also to the right of the first one.) -/

def selectHere (l : List Char) : Bool := ((l.take 6).map Char.toLower) == "select".data

/-- Suffix of the text at the first case-insensitive `SELECT`. -/
def findSelect : List Char → Option (List Char)
  | [] => none
  | c :: cs => if selectHere (c :: cs) then some (c :: cs) else findSelect cs

def RETURNED_INFO : List Char := "Returned information".data

/-- After the mandatory `\n`: `\s*(?:Returned information|$)`, where `$`
(non-MULTILINE) matches at the end of the whole string or just before a
final newline.  `lookTail r` holds iff some whitespace run from the front
of `r` reaches either the literal text or such an end position. -/
def lookTail : List Char → Bool
  | [] => true
  | c :: cs =>
    RETURNED_INFO.isPrefixOf (c :: cs) || ((c :: cs) == ['\n'])
      || (isPySpace c && lookTail cs)

def lookaheadAt : List Char → Bool
  | '\n' :: r => lookTail r
  | _ => false

/-- Grow the non-greedy capture: stop at the first position where the
lookahead holds; fail at end of input (the lookahead needs a `\n`). -/
def growCapture : List Char → List Char → Option (List Char)
  | _, [] => none
  | accRev, c :: cs =>
    if lookaheadAt (c :: cs) then some accRev.reverse
    else growCapture (c :: accRev) cs

def extract_sql_query (s : String) : Option String :=
  match findSelect s.data with
  | none => none
  | some suf =>
    match growCapture (suf.take 6).reverse (suf.drop 6) with
    | none => none
    | some cap =>
      let q := pyStrip (String.mk cap)
      if validate_sql_query q then some q else none

/-! ### ResponseReducer: `get_agent_response` (`index.py` lines 261-378)

The event dictionaries of the Bedrock completion stream are modelled
structurally.  Intermediate dictionary levels that the code defaults to
`{}` (`attribution` → `citations`, `trace` → `trace` → `orchestrationTrace`
→ `observation`, `actionGroupInvocationOutput` → `text`) are collapsed
into one `Option` where an absent level and a present-but-empty level
behave identically in the code. -/

structure Reference where
  contentText : Option String
  s3Uri : Option String

structure Citation where
  generatedText : Option String
  retrievedReferences : List Reference

structure Chunk where
  bytes : Option String
  attributionCitations : Option (List Citation)

structure Observation where
  obsType : Option String
  actionOutput : Option String

structure TraceEvent where
  orchestration : Option Observation

structure AgentEvent where
  trace : Option TraceEvent
  chunk : Option Chunk

structure AgentResponse where
  completion : Option (List AgentEvent)

/-- Pass-1 accumulator: `chunk_text`, `reference_text`, `source_file_list`,
`trace_list` of the Python loop. -/
structure P1 where
  chunkText : String
  refText : String
  sources : List String
  traces : List TraceEvent

/-- One retrieved reference (`index.py` lines 324-345): a present content
text overwrites `reference_text`; a present, truthy `uri` is appended to
`source_file_list`. -/
def refStep (st : P1) (r : Reference) : P1 :=
  let st1 := match r.contentText with
    | some t => { st with refText := t }
    | none => st
  match r.s3Uri with
  | some u => if u = "" then st1 else { st1 with sources := st1.sources ++ [u] }
  | none => st1

def citStep (st : P1) (c : Citation) : P1 := c.retrievedReferences.foldl refStep st

/-- One chunk (`index.py` lines 295-345): truthy bytes are decoded and
appended to `chunk_text`; attribution citations are folded in order.
(The `generatedResponsePart` branch only logs and is dropped.) -/
def chunkStep (st : P1) (ch : Chunk) : P1 :=
  let st1 := match ch.bytes with
    | some b => if b = "" then st else { st with chunkText := st.chunkText ++ b }
    | none => st
  match ch.attributionCitations with
  | some cits => cits.foldl citStep st1
  | none => st1

/-- One completion event (`index.py` lines 285-345): a trace is appended to
`trace_list`, a chunk is processed. -/
def processEvent (st : P1) (e : AgentEvent) : P1 :=
  let st1 := match e.trace with
    | some t => { st with traces := st.traces ++ [t] }
    | none => st
  match e.chunk with
  | some ch => chunkStep st1 ch
  | none => st1

/-- Pass 2, one trace (`index.py` lines 353-367): an `ACTION_GROUP`
observation with truthy output text whose SQL extraction yields a truthy
query. -/
def traceQuery (t : TraceEvent) : Option String :=
  match t.orchestration with
  | some obs =>
    if obs.obsType = some "ACTION_GROUP" then
      match obs.actionOutput with
      | some out =>
        if out = "" then none
        else
          match extract_sql_query out with
          | some q => if q = "" then none else some q
          | none => none
      | none => none
    else none
  | none => none

/-- Pass 2 over the collected traces: each successful extraction replaces
`source_file_list` with the one-element list of the query. -/
def applyTraces (sources : List String) (ts : List TraceEvent) : List String :=
  ts.foldl (fun acc t => match traceQuery t with | some q => [q] | none => acc) sources

def initP1 : P1 := ⟨"", "", [], []⟩

/-- Embedding of `get_agent_response`: raise `ValueError` when the envelope has no
`completion`, otherwise fold the events and then the traces. -/
def get_agent_response (r : AgentResponse) :
    Except String (String × String × List String) :=
  match r.completion with
  | none => Except.error "No completion found in response"
  | some events =>
    let st := events.foldl processEvent initP1
    Except.ok (st.chunkText, st.refText, applyTraces st.sources st.traces)

/-! ### CitationResolver: `source_link` (`index.py` lines 381-439)

The S3 object store is an oracle `Fetch`; `none` models any fetch/parse
failure (the inner `try` skips the source). -/

structure S3Doc where
  url : Option String
  topic : Option String

def Fetch := String → String → Option S3Doc

/-- Python `s.split("//")`, splitting on every non-overlapping `//`. -/
def splitDslashAux : List Char → List Char → List (List Char)
  | acc, [] => [acc.reverse]
  | acc, '/' :: '/' :: rest => acc.reverse :: splitDslashAux [] rest
  | acc, c :: rest => splitDslashAux (c :: acc) rest

def splitDslash (l : List Char) : List (List Char) := splitDslashAux [] l

/-- Python `s.split("/", 1)`. -/
def splitSlash1Aux : List Char → List Char → List (List Char)
  | acc, [] => [acc.reverse]
  | acc, '/' :: rest => [acc.reverse, rest]
  | acc, c :: rest => splitSlash1Aux (c :: acc) rest

def splitSlash1 (l : List Char) : List (List Char) := splitSlash1Aux [] l

/-- Test of `re.match(r"^https?://", link)`. -/
def httpOk (link : String) : Bool :=
  "http://".data.isPrefixOf link.data || "https://".data.isPrefixOf link.data

/-- Format one numbered markdown entry of the reference list. -/
def refEntry (i : Nat) (title link : String) : String :=
  toString i ++ ". [" ++ title ++ "](" ++ link ++ ")\n\n"

/-- The `enumerate(unique_sources, start=1)` loop: the counter advances on
every entry, the emission is skipped for a non-http(s) url. -/
def renderRefs : Nat → List (String × String) → String
  | _, [] => ""
  | i, (title, link) :: rest =>
    (if httpOk link then refEntry i title link else "") ++ renderRefs (i + 1) rest

/-- One iteration of the source loop (`index.py` lines 394-421): require
the `s3://` scheme, split into bucket and key, fetch, and keep the
`(Topic, Url)` pair when both fields are present and truthy. -/
def resolveSource (fetch : Fetch) (acc : List (String × String)) (src : String) :
    List (String × String) :=
  if !("s3://".data.isPrefixOf src.data) then acc
  else
    match splitSlash1 ((splitDslash src.data).getD 1 []) with
    | [b, k] =>
      match fetch (String.mk b) (String.mk k) with
      | none => acc
      | some doc =>
        match doc.url, doc.topic with
        | some u, some t => if u ≠ "" && t ≠ "" then acc ++ [(t, u)] else acc
        | _, _ => acc
    | _ => acc

def collectPairs (fetch : Fetch) (srcs : List String) : List (String × String) :=
  srcs.foldl (resolveSource fetch) []

/-- One `OrderedDict.fromkeys` step: keep the first occurrence of each key. -/
def odDedupStep [DecidableEq α] (acc : List α) (x : α) : List α :=
  if x ∈ acc then acc else acc ++ [x]

/-- Embedding of `list(OrderedDict.fromkeys(l))`. -/
def odDedup [DecidableEq α] (l : List α) : List α := l.foldl odDedupStep []

def source_link (fetch : Fetch) (input_source_list : List String) : String :=
  renderRefs 1 (odDedup (collectPairs fetch input_source_list))

/-! ### RateLimiter: the `rate_limit` decorator (`index.py` lines 142-169,
`middleware.py` lines 56-98).  Clock instants are `Int` seconds; the
per-caller history dict is a total function with default `[]` (the code
initialises a missing key to `[]`). -/

def prune (window now : Int) (hist : List Int) : List Int :=
  hist.filter (fun t => now - t < window)

def RLState := String → List Int

def rlUpdate (st : RLState) (caller : String) (hist : List Int) : RLState :=
  fun id => if id = caller then hist else st id

/-- The admission core of the decorator body: prune (writing the pruned
list back), deny when the pruned count has reached `max_calls`, otherwise
record `now` and admit. -/
def rlAdmit (maxCalls : Nat) (window : Int) (st : RLState) (caller : String)
    (now : Int) : Bool × RLState :=
  let pruned := prune window now (st caller)
  if pruned.length ≥ maxCalls then (false, rlUpdate st caller pruned)
  else (true, rlUpdate st caller (pruned ++ [now]))

/-! ### The decorator stack on `invoke_agent` (`index.py` lines 219-258)

Python exceptions are `PyExc` (`ValueError` vs everything else); a wrapped
operation is a function into `Except PyExc`. -/

inductive PyExc where
  | valueErr (msg : String)
  | exc (msg : String)
deriving DecidableEq

/-- A value as seen through `error_handler`: either the wrapped result or
one of the two error dictionaries. -/
inductive Handled (β : Type) where
  | ok (v : β)
  | errObj (error : String) (status : Nat)

/-- The `error_handler` decorator (`index.py` lines 112-126): `ValueError`
becomes `{"error": "Invalid input", "status": 400}`, any other exception
becomes `{"error": "An internal error occurred", "status": 500}`; it never
re-raises. -/
def error_handler (f : α → Except PyExc β) (x : α) : Except PyExc (Handled β) :=
  match f x with
  | Except.ok v => Except.ok (Handled.ok v)
  | Except.error (PyExc.valueErr _) => Except.ok (Handled.errObj "Invalid input" 400)
  | Except.error (PyExc.exc _) => Except.ok (Handled.errObj "An internal error occurred" 500)

/-- The `audit_log` decorator (`index.py` lines 129-139) only logs. -/
def audit_log (f : α → Except PyExc β) : α → Except PyExc β := f

/-- The `rate_limit` decorator's wrapper (`index.py` lines 146-167): the
caller id is `kwargs.get("session_id", "default")`; denial raises
`Exception("Rate limit exceeded")` before the wrapped call. -/
def rate_limit (maxCalls : Nat) (window : Int) (f : α → Except PyExc β)
    (st : RLState) (kwargsSessionId : Option String) (now : Int) (x : α) :
    Except PyExc β × RLState :=
  let res := rlAdmit maxCalls window st (kwargsSessionId.getD "default") now
  if res.1 then (f x, res.2)
  else (Except.error (PyExc.exc "Rate limit exceeded"), res.2)

/-- The agent backend oracle: `list_agent_aliases` + alias resolution +
`invoke_agent` runtime call, which either raises or returns the streaming
envelope.  (The body's own `try`/`except` re-raises, so it is the
identity on outcomes.) -/
def Backend := String → String → Except PyExc AgentResponse

/-- The body of `invoke_agent` (`index.py` lines 222-258): inline
sanitisation (`ValueError` on falsy result), then the backend call. -/
def invoke_agent_core (backend : Backend) : String × String → Except PyExc AgentResponse :=
  fun p =>
    match sanitize_input p.1 with
    | none => Except.error (PyExc.valueErr "Invalid input")
    | some s => if s = "" then Except.error (PyExc.valueErr "Invalid input") else backend s p.2

/-- Embedding of `invoke_agent` as decorated in the source, outermost first:
`@rate_limit(max_calls=MAX_CALLS_PER_MINUTE, time_window=60)`,
`@error_handler`, `@audit_log`, body. -/
def invoke_agent (maxCalls : Nat) (backend : Backend) (st : RLState) (now : Int)
    (user_input session_id : String) (kwargsSessionId : Option String) :
    Except PyExc (Handled AgentResponse) × RLState :=
  rate_limit maxCalls 60 (error_handler (audit_log (invoke_agent_core backend)))
    st kwargsSessionId now (user_input, session_id)

/-! ### `lambda_handler` (`index.py` lines 468-536) -/

inductive BodyVal where
  | dict (query : Option String) (sessionId : Option String)
  | nonDict

structure LambdaEvent where
  body : Option BodyVal

inductive LambdaResult where
  | success (answer : String) (source : String)
  | failure (error : String) (status : Nat) (details : Option String)
deriving DecidableEq

def excMsg : PyExc → String
  | PyExc.valueErr m => m
  | PyExc.exc m => m

/-- The handler's own `except Exception` branch (`index.py` line 535):
`{"error": "An internal error occurred", "status": 500, "details": str(e)}`. -/
def internalFailure (details : String) : LambdaResult :=
  LambdaResult.failure "An internal error occurred" 500 (some details)

/-- Embedding of `lambda_handler`.  Its body wraps everything in `try`/`except
Exception`, so every exception — including the `ValueError`s it raises
itself, the reducer's missing-completion error and the rate limiter's
denial — lands in `internalFailure` with `details = str(e)`.  The outer
`@error_handler`/`@audit_log` decorators never observe an exception
(the body catches them all first) and are therefore the identity here.
Note: `invoke_agent` is called positionally, so the rate limiter sees no
`session_id` kwarg and uses the `"default"` bucket; and an error
dictionary returned by `invoke_agent`'s `error_handler` flows into
`get_agent_response`, which raises `No completion found in response`. -/
def lambda_handler (maxCalls : Nat) (backend : Backend) (fetch : Fetch)
    (st : RLState) (now : Int) (ev : LambdaEvent) : LambdaResult × RLState :=
  match ev.body.getD (BodyVal.dict none none) with
  | BodyVal.nonDict => (internalFailure "Invalid request body", st)
  | BodyVal.dict q s =>
    if q.getD "" = "" || s.getD "" = "" then
      (internalFailure "Missing required parameters", st)
    else
      let res := invoke_agent maxCalls backend st now (q.getD "") (s.getD "") none
      match res.1 with
      | Except.error e => (internalFailure (excMsg e), res.2)
      | Except.ok (Handled.errObj _ _) =>
        (internalFailure "No completion found in response", res.2)
      | Except.ok (Handled.ok r) =>
        match get_agent_response r with
        | Except.error m => (internalFailure m, res.2)
        | Except.ok out => (LambdaResult.success out.1 (source_link fetch out.2.2), res.2)

/-! ### SessionStore: `SessionManager.validate_session`
(`security_config.py` lines 155-201).  The Streamlit `session_storage`
dict is a total function into `Option SessionRec`. -/

structure SessionRec where
  created_at : Int
  last_accessed : Int
deriving DecidableEq

def SESSION_TIMEOUT : Int := 3600

def SessionState := String → Option SessionRec

def ssUpdate (st : SessionState) (id : String) (v : Option SessionRec) : SessionState :=
  fun k => if k = id then v else st k

/-- Embedding of `validate_session`: absent id → create a fresh record and return true;
timed out (strictly over `timeout` seconds since `last_accessed`) →
delete and return false; otherwise refresh `last_accessed` and return
true. -/
def validate_session (timeout : Int) (st : SessionState) (session_id : String)
    (now : Int) : Bool × SessionState :=
  match st session_id with
  | none => (true, ssUpdate st session_id (some ⟨now, now⟩))
  | some r =>
    if now - r.last_accessed > timeout then (false, ssUpdate st session_id none)
    else (true, ssUpdate st session_id (some { r with last_accessed := now }))

/-! ## Specification-side descriptions of the reducer's output

These definitions follow the spec's words (§4.6, §8) and are compared
with the fold above: the answer is the in-order concatenation of the
decoded chunk payloads, the reference text is the content text of the
last reference carrying one, and the pass-1 sources are the storage
location URIs in order of appearance. -/

def concatAll : List String → String
  | [] => ""
  | s :: l => s ++ concatAll l

/-- Last element of a list, or the default when the list is empty. -/
def lastD (l : List α) (d : α) : α := l.foldl (fun _ x => x) d

def chunkRefs (ch : Chunk) : List Reference :=
  (ch.attributionCitations.getD []).flatMap Citation.retrievedReferences

def evtRefs (e : AgentEvent) : List Reference :=
  match e.chunk with
  | some ch => chunkRefs ch
  | none => []

/-- All retrieved references of all citations of all chunks, in order. -/
def allRefs (events : List AgentEvent) : List Reference := events.flatMap evtRefs

/-- The storage-location URIs a reference carries (none when the field is
absent or empty, i.e. falsy). -/
def refUris (r : Reference) : List String :=
  match r.s3Uri with
  | some u => if u = "" then [] else [u]
  | none => []

/-- Spec §4.6 step 2: every chunk's decoded byte payload contributes to
the answer, in order. -/
def specAnswerText (events : List AgentEvent) : String :=
  concatAll (events.filterMap (fun e => e.chunk.bind Chunk.bytes))

/-- Spec §4.6 step 2: the content text of the last retrieved reference
carrying one, empty if none occurs. -/
def specReferenceText (events : List AgentEvent) : String :=
  lastD ((allRefs events).filterMap Reference.contentText) ""

/-- Spec §4.6 step 2: the s3 location URIs in order of appearance. -/
def specSources (events : List AgentEvent) : List String :=
  (allRefs events).flatMap refUris

/-- The traces of the event sequence in order (pass 1 collects exactly
these). -/
def tracesOf (events : List AgentEvent) : List TraceEvent :=
  events.filterMap AgentEvent.trace

/-! ## Helper lemmas: components of the pass-1 fold -/

theorem lastD_cons (x : α) (l : List α) (d : α) : lastD (x :: l) d = lastD l x := rfl

theorem lastD_append (l₁ l₂ : List α) (d : α) :
    lastD (l₁ ++ l₂) d = lastD l₂ (lastD l₁ d) := by
  simp [lastD, List.foldl_append]

theorem refStep_chunkText (st : P1) (r : Reference) :
    (refStep st r).chunkText = st.chunkText := by
  unfold refStep
  cases r.contentText <;> cases r.s3Uri <;> simp <;> split <;> rfl

theorem refStep_traces (st : P1) (r : Reference) :
    (refStep st r).traces = st.traces := by
  unfold refStep
  cases r.contentText <;> cases r.s3Uri <;> simp <;> split <;> rfl

theorem refStep_refText (st : P1) (r : Reference) :
    (refStep st r).refText = r.contentText.getD st.refText := by
  unfold refStep
  cases r.contentText <;> cases r.s3Uri <;> simp <;> split <;> rfl

theorem refStep_sources (st : P1) (r : Reference) :
    (refStep st r).sources = st.sources ++ refUris r := by
  unfold refStep refUris
  cases r.contentText <;> cases r.s3Uri <;> simp <;> split <;> simp

theorem foldl_refStep_chunkText (refs : List Reference) (st : P1) :
    (refs.foldl refStep st).chunkText = st.chunkText := by
  induction refs generalizing st with
  | nil => rfl
  | cons r refs ih => simp [List.foldl_cons, ih, refStep_chunkText]

theorem foldl_refStep_traces (refs : List Reference) (st : P1) :
    (refs.foldl refStep st).traces = st.traces := by
  induction refs generalizing st with
  | nil => rfl
  | cons r refs ih => simp [List.foldl_cons, ih, refStep_traces]

theorem foldl_refStep_refText (refs : List Reference) (st : P1) :
    (refs.foldl refStep st).refText =
      lastD (refs.filterMap Reference.contentText) st.refText := by
  induction refs generalizing st with
  | nil => rfl
  | cons r refs ih =>
    cases h : r.contentText with
    | none =>
      simp [List.foldl_cons, ih, List.filterMap_cons, h, refStep_refText]
    | some t =>
      simp [List.foldl_cons, ih, List.filterMap_cons, h, refStep_refText, lastD_cons]

theorem foldl_refStep_sources (refs : List Reference) (st : P1) :
    (refs.foldl refStep st).sources = st.sources ++ refs.flatMap refUris := by
  induction refs generalizing st with
  | nil => simp
  | cons r refs ih =>
    simp [List.foldl_cons, ih, refStep_sources, List.append_assoc]

theorem foldl_citStep_eq (cits : List Citation) (st : P1) :
    cits.foldl citStep st = (cits.flatMap Citation.retrievedReferences).foldl refStep st := by
  induction cits generalizing st with
  | nil => rfl
  | cons c cits ih =>
    simp [List.foldl_cons, ih, citStep, List.foldl_append]

theorem chunkStep_chunkText (st : P1) (ch : Chunk) :
    (chunkStep st ch).chunkText = st.chunkText ++ ch.bytes.getD "" := by
  unfold chunkStep
  cases hb : ch.bytes with
  | none =>
    cases hc : ch.attributionCitations <;>
      simp [foldl_citStep_eq, foldl_refStep_chunkText]
  | some b =>
    by_cases h : b = "" <;>
      cases hc : ch.attributionCitations <;>
        simp [h, foldl_citStep_eq, foldl_refStep_chunkText]

theorem chunkStep_traces (st : P1) (ch : Chunk) :
    (chunkStep st ch).traces = st.traces := by
  unfold chunkStep
  cases hb : ch.bytes with
  | none =>
    cases hc : ch.attributionCitations <;>
      simp [foldl_citStep_eq, foldl_refStep_traces]
  | some b =>
    by_cases h : b = "" <;>
      cases hc : ch.attributionCitations <;>
        simp [h, foldl_citStep_eq, foldl_refStep_traces]

theorem chunkStep_refText (st : P1) (ch : Chunk) :
    (chunkStep st ch).refText =
      lastD ((chunkRefs ch).filterMap Reference.contentText) st.refText := by
  unfold chunkStep chunkRefs
  cases hb : ch.bytes with
  | none =>
    cases hc : ch.attributionCitations <;>
      simp [foldl_citStep_eq, foldl_refStep_refText, lastD]
  | some b =>
    by_cases h : b = "" <;>
      cases hc : ch.attributionCitations <;>
        simp [h, foldl_citStep_eq, foldl_refStep_refText, lastD]

theorem chunkStep_sources (st : P1) (ch : Chunk) :
    (chunkStep st ch).sources = st.sources ++ (chunkRefs ch).flatMap refUris := by
  unfold chunkStep chunkRefs
  cases hb : ch.bytes with
  | none =>
    cases hc : ch.attributionCitations <;>
      simp [foldl_citStep_eq, foldl_refStep_sources]
  | some b =>
    by_cases h : b = "" <;>
      cases hc : ch.attributionCitations <;>
        simp [h, foldl_citStep_eq, foldl_refStep_sources]

theorem processEvent_chunkText (st : P1) (e : AgentEvent) :
    (processEvent st e).chunkText = st.chunkText ++ (e.chunk.bind Chunk.bytes).getD "" := by
  unfold processEvent
  cases ht : e.trace <;> cases hc : e.chunk <;>
    simp [chunkStep_chunkText, Option.bind]

theorem processEvent_traces (st : P1) (e : AgentEvent) :
    (processEvent st e).traces = st.traces ++ e.trace.toList := by
  unfold processEvent
  cases ht : e.trace <;> cases hc : e.chunk <;>
    simp [chunkStep_traces]

theorem processEvent_refText (st : P1) (e : AgentEvent) :
    (processEvent st e).refText =
      lastD ((evtRefs e).filterMap Reference.contentText) st.refText := by
  unfold processEvent evtRefs
  cases ht : e.trace <;> cases hc : e.chunk <;>
    simp [chunkStep_refText, lastD]

theorem processEvent_sources (st : P1) (e : AgentEvent) :
    (processEvent st e).sources = st.sources ++ (evtRefs e).flatMap refUris := by
  unfold processEvent evtRefs
  cases ht : e.trace <;> cases hc : e.chunk <;>
    simp [chunkStep_sources]

/-! ## Helper lemmas: the whole pass-1 fold -/

theorem foldP1_chunkText (events : List AgentEvent) (st : P1) :
    (events.foldl processEvent st).chunkText =
      st.chunkText ++ concatAll (events.filterMap (fun e => e.chunk.bind Chunk.bytes)) := by
  induction events generalizing st with
  | nil => simp [concatAll]
  | cons e events ih =>
    cases hb : e.chunk.bind Chunk.bytes with
    | none =>
      have hpe := processEvent_chunkText st e
      rw [hb] at hpe
      simp [List.foldl_cons, ih, List.filterMap_cons, hb, hpe]
    | some b =>
      have hpe := processEvent_chunkText st e
      rw [hb] at hpe
      simp [List.foldl_cons, ih, List.filterMap_cons, hb, hpe, concatAll,
        String.append_assoc]

theorem foldP1_traces (events : List AgentEvent) (st : P1) :
    (events.foldl processEvent st).traces = st.traces ++ tracesOf events := by
  induction events generalizing st with
  | nil => simp [tracesOf]
  | cons e events ih =>
    cases ht : e.trace with
    | none =>
      have hpe := processEvent_traces st e
      rw [ht] at hpe
      simp [List.foldl_cons, ih, tracesOf, List.filterMap_cons, ht, hpe]
    | some t =>
      have hpe := processEvent_traces st e
      rw [ht] at hpe
      simp [List.foldl_cons, ih, tracesOf, List.filterMap_cons, ht, hpe]

theorem foldP1_refText (events : List AgentEvent) (st : P1) :
    (events.foldl processEvent st).refText =
      lastD ((allRefs events).filterMap Reference.contentText) st.refText := by
  induction events generalizing st with
  | nil => simp [allRefs, lastD]
  | cons e events ih =>
    simp [List.foldl_cons, ih, processEvent_refText, allRefs, List.flatMap_cons,
      List.filterMap_append, lastD_append]

theorem foldP1_sources (events : List AgentEvent) (st : P1) :
    (events.foldl processEvent st).sources = st.sources ++ specSources events := by
  induction events generalizing st with
  | nil => simp [specSources, allRefs]
  | cons e events ih =>
    simp [List.foldl_cons, ih, processEvent_sources, specSources, allRefs,
      List.flatMap_cons, List.flatMap_append, List.append_assoc]

/-! ## Helper lemma: the pass-2 trace fold -/

theorem applyTraces_eq (ts : List TraceEvent) (src : List String) :
    applyTraces src ts =
      match (ts.filterMap traceQuery).getLast? with
      | some q => [q]
      | none => src := by
  induction ts generalizing src with
  | nil => simp [applyTraces]
  | cons t ts ih =>
    cases hq : traceQuery t with
    | none =>
      simp only [applyTraces, List.foldl_cons, hq]
      simpa [applyTraces, List.filterMap_cons, hq] using ih src
    | some q =>
      simp only [applyTraces, List.foldl_cons, hq]
      have := ih [q]
      simp only [applyTraces] at this
      rw [this]
      cases hrest : ts.filterMap traceQuery with
      | nil => simp [List.filterMap_cons, hq, hrest]
      | cons q' rest =>
        simp only [List.filterMap_cons, hq, hrest]
        cases hl : (q' :: rest).getLast? with
        | none => exact absurd (List.getLast?_eq_none_iff.mp hl) (by simp)
        | some x => simp [hl]

/-! ## Claim C3: the query guard on the spec's example query -/

/-- C3, counterexample: contrary to the claim, the query guard is not
permissive on identifiers and literals.  On the claim's own example the
guard returns `false`: the tokens `NAME`, `USERS`, `ID`, `1` are not in
the keyword allow-list, and the guard requires every non-stopword token
to be allow-listed. -/
theorem c3_counterexample :
    validate_sql_query "SELECT name FROM users WHERE id = 1" = false := by decide

/-- C3, amended: `validate_sql_query` accepts exactly the queries in which
every word token of the upper-cased text outside the stopword set
{AND, OR, IN, THE, AS, ON} belongs to the SQL keyword allow-list (so
identifiers and literals are rejected, not ignored) and which contain
none of `;`, `--`, `/*`; in particular the claim's example query
`"SELECT name FROM users WHERE id = 1"` is rejected. -/
theorem c3_amended :
    (∀ q : String, validate_sql_query q = true ↔
      ((∀ w ∈ wordTokens (pyToUpper q), w ∉ STOP_WORDS → w ∈ ALLOWED_SQL_KEYWORDS) ∧
        containsSub ";".data q.data = false ∧
        containsSub "--".data q.data = false ∧
        containsSub "/*".data q.data = false)) ∧
    validate_sql_query "SELECT name FROM users WHERE id = 1" = false := by
  refine ⟨?_, by decide⟩
  intro q
  unfold validate_sql_query
  cases hall : ((wordTokens (pyToUpper q)).filter (fun w => !(STOP_WORDS.contains w))).all
      (fun w => ALLOWED_SQL_KEYWORDS.contains w) with
  | false =>
    simp only [hall, Bool.not_false, if_pos]
    constructor
    · intro h
      exact absurd h (by simp)
    · rintro ⟨hkw, -, -, -⟩
      exfalso
      have htrue : ((wordTokens (pyToUpper q)).filter
          (fun w => !(STOP_WORDS.contains w))).all
          (fun w => ALLOWED_SQL_KEYWORDS.contains w) = true := by
        refine List.all_eq_true.mpr (fun w hw => ?_)
        have hm := List.mem_filter.mp hw
        simpa using hkw w hm.1 (by simpa using hm.2)
      rw [htrue] at hall
      exact absurd hall (by simp)
  | true =>
    simp only [hall, Bool.not_true, Bool.false_eq_true, if_false]
    cases hpat : (containsSub ";".data q.data || containsSub "--".data q.data
        || containsSub "/*".data q.data) with
    | true =>
      simp only [hpat, if_pos]
      constructor
      · intro h
        exact absurd h (by simp)
      · rintro ⟨-, h1, h2, h3⟩
        simp [h1, h2, h3] at hpat
    | false =>
      simp only [hpat, Bool.false_eq_true, if_false]
      have hp := Bool.or_eq_false_iff.mp hpat
      have hp1 := Bool.or_eq_false_iff.mp hp.1
      refine ⟨fun _ => ⟨?_, hp1.1, hp1.2, hp.2⟩, fun _ => by simp⟩
      intro w hw hstop
      have := List.all_eq_true.mp hall w
        (List.mem_filter.mpr ⟨hw, by simpa using hstop⟩)
      simpa using this

/-- C3, amended, witness: a keyword-only query is accepted via the
characterisation. -/
theorem c3_amended_witness : validate_sql_query "SELECT FROM WHERE" = true :=
  (c3_amended.1 "SELECT FROM WHERE").mpr (by decide)

/-! ## Claim C9: `sanitize_input` -/

/-- C9, counterexample: the empty string is within the length limit and
has no character outside the allowed class, yet `sanitize_input` rejects
it (the anchored regex `^[...]+$` demands at least one character), so the
claim's acceptance clause fails on the empty string. -/
theorem c9_counterexample :
    sanitize_input "" = none ∧
      "".length ≤ MAX_INPUT_LENGTH ∧ "".data.all allowedChar = true := by decide

/-- C9, amended: `sanitize_input` rejects every input longer than the
configured maximum length and every input containing a character outside
the allowed class, and for every NONEMPTY input within the length limit
composed only of allowed characters it returns the input trimmed of
leading/trailing whitespace (the empty string is additionally rejected;
the claim's non-string clause is enforced by the type of the embedding). -/
theorem c9_amended : ∀ s : String,
    (s.length > MAX_INPUT_LENGTH → sanitize_input s = none) ∧
    ((∃ c ∈ s.data, allowedChar c = false) → sanitize_input s = none) ∧
    (s.data ≠ [] → s.length ≤ MAX_INPUT_LENGTH →
      (∀ c ∈ s.data, allowedChar c = true) →
      sanitize_input s = some (pyStrip s)) := by
  intro s
  refine ⟨?_, ?_, ?_⟩
  · intro h
    unfold sanitize_input
    rw [if_pos h]
  · rintro ⟨c, hc, hbad⟩
    unfold sanitize_input
    split
    · rfl
    · rw [if_neg]
      intro hcond
      have hall := (Bool.and_eq_true _ _).mp hcond
      have := List.all_eq_true.mp hall.2 c hc
      rw [hbad] at this
      exact Bool.false_ne_true this
  · intro hne hlen hall
    unfold sanitize_input
    rw [if_neg (by omega), if_pos]
    exact (Bool.and_eq_true _ _).mpr
      ⟨by simpa [List.isEmpty_iff] using hne, List.all_eq_true.mpr hall⟩

/-- C9, amended, witness: a concrete allowed input is returned stripped. -/
theorem c9_amended_witness : sanitize_input " hi " = some "hi" := by
  rw [(c9_amended " hi ").2.2 (by decide) (by decide) (by decide)]
  rfl

/-! ## Claim C6: the rate limiter -/

def rlEmpty : RLState := fun _ => []

def rlSt1 : RLState := (rlAdmit 2 60 rlEmpty "a" 0).2

def rlSt2 : RLState := (rlAdmit 2 60 rlSt1 "a" 0).2

def rlSt3 : RLState := (rlAdmit 2 60 rlSt2 "a" 1).2

/-- C6: the rate limiter admits a call iff the caller's pruned window
(timestamps strictly within the trailing `window`) has fewer than
`maxCalls` entries; on admission it records `now` after the pruned
window, on denial it writes back only the pruned window; other callers'
state is untouched.  Concretely with `maxCalls = 2`, `window = 60`:
calls at times 0, 0, 1 are admitted, admitted, denied, and a fourth call
at time 61 (window elapsed) is admitted again. -/
theorem c6_rate_limiter :
    (∀ (maxCalls : Nat) (window : Int) (st : RLState) (caller : String) (now : Int),
      ((rlAdmit maxCalls window st caller now).1 = true ↔
        (prune window now (st caller)).length < maxCalls) ∧
      ((rlAdmit maxCalls window st caller now).1 = true →
        (rlAdmit maxCalls window st caller now).2 caller =
          prune window now (st caller) ++ [now]) ∧
      ((rlAdmit maxCalls window st caller now).1 = false →
        (rlAdmit maxCalls window st caller now).2 caller =
          prune window now (st caller)) ∧
      (∀ other, other ≠ caller →
        (rlAdmit maxCalls window st caller now).2 other = st other)) ∧
    ((rlAdmit 2 60 rlEmpty "a" 0).1 = true ∧
     (rlAdmit 2 60 rlSt1 "a" 0).1 = true ∧
     (rlAdmit 2 60 rlSt2 "a" 1).1 = false ∧
     (rlAdmit 2 60 rlSt3 "a" 61).1 = true) := by
  constructor
  · intro maxCalls window st caller now
    unfold rlAdmit rlUpdate
    by_cases h : (prune window now (st caller)).length ≥ maxCalls
    · rw [if_pos h]
      refine ⟨by simpa using h, by simp, by simp, ?_⟩
      intro other hother
      simp [if_neg hother]
    · rw [if_neg h]
      refine ⟨by simpa using Nat.lt_of_not_le h, by simp, by simp, ?_⟩
      intro other hother
      simp [if_neg hother]
  · exact ⟨by decide, by decide, by decide, by decide⟩

/-- C6, witness: the denied third call leaves exactly the pruned window
`[0, 0]` recorded for caller `"a"`. -/
theorem c6_rate_limiter_witness : (rlAdmit 2 60 rlSt2 "a" 1).2 "a" = [0, 0] := by
  rw [(c6_rate_limiter.1 2 60 rlSt2 "a" 1).2.2.1 (by decide)]
  decide

/-! ## Claim C7: `validate_session` -/

def sstEmpty : SessionState := fun _ => none

/-- C7: `validate_session` creates a fresh record and returns true when
the id is absent; deletes the record and returns false when `now` minus
`last_accessed` strictly exceeds the timeout; otherwise refreshes
`last_accessed` and returns true — and after every call returning true
the stored record for the id exists with `last_accessed = now`. -/
theorem c7_session_validate :
    ∀ (timeout : Int) (st : SessionState) (id : String) (now : Int),
    (st id = none →
      (validate_session timeout st id now).1 = true ∧
      (validate_session timeout st id now).2 id = some ⟨now, now⟩) ∧
    (∀ r, st id = some r → now - r.last_accessed > timeout →
      (validate_session timeout st id now).1 = false ∧
      (validate_session timeout st id now).2 id = none) ∧
    (∀ r, st id = some r → ¬(now - r.last_accessed > timeout) →
      (validate_session timeout st id now).1 = true ∧
      (validate_session timeout st id now).2 id = some ⟨r.created_at, now⟩) ∧
    ((validate_session timeout st id now).1 = true →
      ∃ r, (validate_session timeout st id now).2 id = some r ∧
        r.last_accessed = now) := by
  intro timeout st id now
  refine ⟨?_, ?_, ?_, ?_⟩
  · intro h
    simp [validate_session, h, ssUpdate]
  · intro r hr htime
    simp [validate_session, hr, if_pos htime, ssUpdate]
  · intro r hr htime
    simp [validate_session, hr, if_neg htime, ssUpdate]
  · intro htrue
    cases hr : st id with
    | none =>
      exact ⟨⟨now, now⟩, by simp [validate_session, hr, ssUpdate], rfl⟩
    | some r =>
      by_cases htime : now - r.last_accessed > timeout
      · have hfalse : (validate_session timeout st id now).1 = false := by
          simp [validate_session, hr, if_pos htime]
        rw [hfalse] at htrue
        exact absurd htrue (by simp)
      · exact ⟨{ r with last_accessed := now },
          by simp [validate_session, hr, if_neg htime, ssUpdate], rfl⟩

/-- C7, witness: validating an unknown id at time 5 creates the record
`⟨5, 5⟩` for it. -/
theorem c7_session_validate_witness :
    (validate_session 3600 sstEmpty "x" 5).1 = true ∧
      (validate_session 3600 sstEmpty "x" 5).2 "x" = some ⟨5, 5⟩ :=
  (c7_session_validate 3600 sstEmpty "x" 5).1 rfl

/-! ## Claims C4 and C5: the response reducer -/

/-- Two chunk events `"Hello "` and `"world"`, no citations or traces. -/
def helloEvents : List AgentEvent :=
  [⟨none, some ⟨some "Hello ", none⟩⟩, ⟨none, some ⟨some "world", none⟩⟩]

/-- A chunk with an attribution citation carrying a reference with an
s3 location URI. -/
def citEv : AgentEvent :=
  ⟨none, some ⟨some "ans", some [⟨none, [⟨some "reftext", some "s3://bucket/key.json"⟩]⟩]⟩⟩

/-- A trace with an `ACTION_GROUP` observation whose output text contains
an extractable, re-validated `SELECT` query. -/
def trEv : AgentEvent :=
  ⟨some ⟨some ⟨some "ACTION_GROUP", some "SELECT FROM WHERE\nReturned information: x"⟩⟩, none⟩

/-- C5: for every completion event sequence, the reducer returns the
in-order concatenation of the decoded chunk payloads as the answer and
the content text of the last reference carrying one (empty if none) as
the reference text; and when no trace yields an extracted query, the
sources are the s3 location URIs in order of appearance.  In particular
the two chunks `"Hello "` and `"world"` yield `"Hello world"` and no
sources. -/
theorem c5_pass1 :
    (∀ events : List AgentEvent,
      (∃ s, get_agent_response ⟨some events⟩ =
          Except.ok (specAnswerText events, specReferenceText events, s)) ∧
      ((tracesOf events).filterMap traceQuery = [] →
        get_agent_response ⟨some events⟩ =
          Except.ok (specAnswerText events, specReferenceText events, specSources events))) ∧
    get_agent_response ⟨some helloEvents⟩ = Except.ok ("Hello world", "", []) := by
  constructor
  · intro events
    have hA : (events.foldl processEvent initP1).chunkText = specAnswerText events := by
      simpa [initP1, specAnswerText] using foldP1_chunkText events initP1
    have hR : (events.foldl processEvent initP1).refText = specReferenceText events := by
      simpa [initP1, specReferenceText] using foldP1_refText events initP1
    have hS : (events.foldl processEvent initP1).sources = specSources events := by
      simpa [initP1] using foldP1_sources events initP1
    have hT : (events.foldl processEvent initP1).traces = tracesOf events := by
      simpa [initP1] using foldP1_traces events initP1
    constructor
    · exact ⟨applyTraces ((events.foldl processEvent initP1).sources)
        ((events.foldl processEvent initP1).traces),
        by simp only [get_agent_response, hA, hR]⟩
    · intro hnone
      simp only [get_agent_response, hA, hR, hS, hT]
      rw [applyTraces_eq, hnone]
      simp
  · rfl

/-- C5, witness: the hello-world sequence has no traces, so the general
statement applies and evaluates to the spec-side values. -/
theorem c5_pass1_witness :
    get_agent_response ⟨some helloEvents⟩ =
      Except.ok (specAnswerText helloEvents, specReferenceText helloEvents,
        specSources helloEvents) :=
  (c5_pass1.1 helloEvents).2 rfl

/-- C4: whenever the traces collected from the completion events contain
at least one successful SQL extraction (last one `q`), the reducer's
final sources are exactly `[q]`, replacing every URI collected in pass 1. -/
theorem c4_trace_wins :
    ∀ (events : List AgentEvent) (q : String),
      ((tracesOf events).filterMap traceQuery).getLast? = some q →
      get_agent_response ⟨some events⟩ =
        Except.ok (specAnswerText events, specReferenceText events, [q]) := by
  intro events q hq
  have hA : (events.foldl processEvent initP1).chunkText = specAnswerText events := by
    simpa [initP1, specAnswerText] using foldP1_chunkText events initP1
  have hR : (events.foldl processEvent initP1).refText = specReferenceText events := by
    simpa [initP1, specReferenceText] using foldP1_refText events initP1
  have hT : (events.foldl processEvent initP1).traces = tracesOf events := by
    simpa [initP1] using foldP1_traces events initP1
  simp only [get_agent_response, hA, hR, hT]
  rw [applyTraces_eq, hq]

/-- C4, witness: a chunk with an s3 citation URI followed by a trace with
an extractable `SELECT` query reduces to sources `["SELECT FROM WHERE"]`,
the URI being replaced. -/
theorem c4_trace_wins_witness :
    get_agent_response ⟨some [citEv, trEv]⟩ =
      Except.ok ("ans", "reftext", ["SELECT FROM WHERE"]) := by
  rw [c4_trace_wins [citEv, trEv] "SELECT FROM WHERE" (by decide)]
  rfl

/-! ## Claims C8 and C10: the citation resolver -/

/-- Invariant of the `OrderedDict.fromkeys` fold: starting from a
duplicate-free accumulator, the fold appends a duplicate-free sublist of
the input covering exactly the elements not already seen. -/
theorem odDedup_aux [DecidableEq α] (l : List α) :
    ∀ acc : List α, acc.Nodup →
      ∃ d, List.foldl odDedupStep acc l = acc ++ d ∧ d.Sublist l ∧
        (acc ++ d).Nodup ∧ (∀ p, p ∈ acc ++ d ↔ p ∈ acc ∨ p ∈ l) := by
  induction l with
  | nil =>
    intro acc hacc
    exact ⟨[], by simp, List.Sublist.refl _, by simpa using hacc, by simp⟩
  | cons x l ih =>
    intro acc hacc
    by_cases hx : x ∈ acc
    · have step : odDedupStep acc x = acc := by simp [odDedupStep, hx]
      obtain ⟨d, hfold, hsub, hnodup, hmem⟩ := ih acc hacc
      refine ⟨d, ?_, hsub.cons x, hnodup, ?_⟩
      · simpa [List.foldl_cons, step] using hfold
      · intro p
        rw [hmem p]
        constructor
        · tauto
        · rintro (hp | hp)
          · exact Or.inl hp
          · rcases List.mem_cons.mp hp with rfl | hp
            · exact Or.inl hx
            · exact Or.inr hp
    · have step : odDedupStep acc x = acc ++ [x] := by simp [odDedupStep, hx]
      have hacc' : (acc ++ [x]).Nodup := by
        simp [List.nodup_append, hacc, hx]
      obtain ⟨d, hfold, hsub, hnodup, hmem⟩ := ih (acc ++ [x]) hacc'
      refine ⟨x :: d, ?_, hsub.cons₂ x, ?_, ?_⟩
      · rw [List.foldl_cons, step, hfold, List.append_assoc]
        rfl
      · rw [List.append_assoc] at hnodup
        simpa using hnodup
      · intro p
        have := hmem p
        rw [List.append_assoc] at this
        simp only [List.mem_append, List.mem_cons, List.mem_singleton] at this ⊢
        tauto

/-- When every deduplicated pair is skipped by the http(s) filter, the
rendering loop emits nothing. -/
theorem renderRefs_skip_all (l : List (String × String)) :
    ∀ i, (∀ p ∈ l, httpOk p.2 = false) → renderRefs i l = "" := by
  induction l with
  | nil => intro i _; rfl
  | cons p l ih =>
    intro i h
    obtain ⟨t, u⟩ := p
    have hu : httpOk u = false := h (t, u) (by simp)
    simp [renderRefs, hu, ih (i + 1) (fun p hp => h p (by simp [hp]))]

def fetchDup : Fetch := fun _ _ => some ⟨some "https://e.x", some "T"⟩

def fetchNone : Fetch := fun _ _ => none

/-- C8: the resolver's deduplicated pair list contains each distinct
(title, url) pair at most once (`Nodup`), preserves the collection order
(`Sublist`) and loses no pair (membership); when nothing qualifies — here,
when every deduplicated pair fails the url filter, which subsumes the case
of no collected pair at all — the result is the empty string; and two
sources resolving to the identical pair produce exactly one numbered
entry.  (The resolver is a total function: it never fails.) -/
theorem c8_citation_resolver :
    (∀ l : List (String × String),
      (odDedup l).Nodup ∧ (odDedup l).Sublist l ∧ (∀ p, p ∈ odDedup l ↔ p ∈ l)) ∧
    (∀ (fetch : Fetch) (srcs : List String),
      (∀ p ∈ odDedup (collectPairs fetch srcs), httpOk p.2 = false) →
      source_link fetch srcs = "") ∧
    source_link fetchDup ["s3://b/k1", "s3://b/k2"] = "1. [T](https://e.x)\n\n" := by
  refine ⟨?_, ?_, by decide⟩
  · intro l
    obtain ⟨d, hfold, hsub, hnodup, hmem⟩ := odDedup_aux l [] List.nodup_nil
    have hd : odDedup l = d := by simpa [odDedup] using hfold
    rw [hd]
    refine ⟨by simpa using hnodup, hsub, ?_⟩
    intro p
    have := hmem p
    simpa using this
  · intro fetch srcs h
    exact renderRefs_skip_all _ 1 h

/-- C8, witness: with an object store returning no readable document,
no source qualifies and the resolver returns the empty string. -/
theorem c8_citation_resolver_witness : source_link fetchNone ["s3://b/k"] = "" :=
  c8_citation_resolver.2.1 fetchNone ["s3://b/k"] (by decide)

/-- 1-based indexing of a list, mirroring Python `enumerate(l, start=i)`. -/
def withIndexFrom : Nat → List α → List (Nat × α)
  | _, [] => []
  | i, x :: l => (i, x) :: withIndexFrom (i + 1) l

/-- The rendering loop emits exactly the http(s)-filtered entries of the
index-annotated deduplicated list: the counter advances on skipped
entries. -/
theorem renderRefs_eq_entries (l : List (String × String)) :
    ∀ i, renderRefs i l =
      concatAll (((withIndexFrom i l).filter (fun p => httpOk p.2.2)).map
        (fun p => refEntry p.1 p.2.1 p.2.2)) := by
  induction l with
  | nil => intro i; rfl
  | cons p l ih =>
    intro i
    obtain ⟨t, u⟩ := p
    cases hu : httpOk u with
    | true =>
      simp [renderRefs, withIndexFrom, hu, List.filter_cons, ih (i + 1), concatAll]
    | false =>
      simp [renderRefs, withIndexFrom, hu, List.filter_cons, ih (i + 1)]

def fetchSkip : Fetch := fun _ k =>
  if k = "k1" then some ⟨some "ftp://x", some "A"⟩ else some ⟨some "https://y", some "B"⟩

/-- C10: each emitted entry's numeric label is its 1-based position in the
deduplicated pair list, assigned before the http(s) filter; hence when an
entry is skipped the numbering is not consecutive: with a first pair
resolving to a non-http url, the output starts with `2.` and contains no
`1.`. -/
theorem c10_numbering :
    (∀ (fetch : Fetch) (srcs : List String),
      source_link fetch srcs =
        concatAll (((withIndexFrom 1 (odDedup (collectPairs fetch srcs))).filter
          (fun p => httpOk p.2.2)).map (fun p => refEntry p.1 p.2.1 p.2.2))) ∧
    (source_link fetchSkip ["s3://b/k1", "s3://b/k2"] = "2. [B](https://y)\n\n" ∧
      containsSub "1.".data
        (source_link fetchSkip ["s3://b/k1", "s3://b/k2"]).data = false) := by
  refine ⟨?_, by decide, by decide⟩
  intro fetch srcs
  exact renderRefs_eq_entries _ 1

/-! ## Claim C2: the decorator composition on `invoke_agent` -/

def backendOk : Backend := fun _ _ => Except.ok ⟨some []⟩

def rlOne : RLState := fun _ => [0]

def rlZero : RLState := fun _ => []

/-- C2, counterexample: the composed `invoke_agent` is stacked with
`@rate_limit` OUTERMOST (`index.py` lines 219-221), not with error
containment outermost; consequently a rate-limit denial raises out of the
composed operation instead of being mapped to a user-visible error shape:
with `max_calls = 1` and one fresh timestamp already recorded for the
caller bucket, the composition returns a raised exception. -/
theorem c2_counterexample :
    (invoke_agent 1 backendOk rlOne 0 "hi" "s" (some "s")).1 =
      Except.error (PyExc.exc "Rate limit exceeded") := rfl

/-- C2, amended: the composition order is rate limiting outermost, then
error containment, then audit logging, with input validation performed
inline inside the wrapped operation; when the rate limiter admits the
call, the composition never raises and returns either the
validation-failure shape `{error: Invalid input, status: 400}`, the
internal-failure shape `{error: An internal error occurred, status: 500}`,
or the wrapped response; when the pruned window of the caller bucket has
reached `max_calls`, the composition raises `Rate limit exceeded`
(contained only further out, by the Lambda handler). -/
theorem c2_amended :
    ∀ (maxCalls : Nat) (backend : Backend) (st : RLState) (now : Int)
      (ui sid : String) (kw : Option String),
      ((prune 60 now (st (kw.getD "default"))).length < maxCalls →
        ∃ v, (invoke_agent maxCalls backend st now ui sid kw).1 = Except.ok v ∧
          (v = Handled.errObj "Invalid input" 400 ∨
           v = Handled.errObj "An internal error occurred" 500 ∨
           ∃ r, v = Handled.ok r)) ∧
      ((prune 60 now (st (kw.getD "default"))).length ≥ maxCalls →
        (invoke_agent maxCalls backend st now ui sid kw).1 =
          Except.error (PyExc.exc "Rate limit exceeded")) := by
  intro maxCalls backend st now ui sid kw
  constructor
  · intro h
    have hadm : rlAdmit maxCalls 60 st (kw.getD "default") now =
        (true, rlUpdate st (kw.getD "default")
          (prune 60 now (st (kw.getD "default")) ++ [now])) := by
      unfold rlAdmit
      rw [if_neg (by omega)]
    simp only [invoke_agent, rate_limit, hadm, if_true]
    cases hc : invoke_agent_core backend (ui, sid) with
    | ok r =>
      exact ⟨Handled.ok r, by simp [error_handler, audit_log, hc],
        Or.inr (Or.inr ⟨r, rfl⟩)⟩
    | error e =>
      cases e with
      | valueErr m =>
        exact ⟨Handled.errObj "Invalid input" 400,
          by simp [error_handler, audit_log, hc], Or.inl rfl⟩
      | exc m =>
        exact ⟨Handled.errObj "An internal error occurred" 500,
          by simp [error_handler, audit_log, hc], Or.inr (Or.inl rfl)⟩
  · intro h
    have hadm : rlAdmit maxCalls 60 st (kw.getD "default") now =
        (false, rlUpdate st (kw.getD "default")
          (prune 60 now (st (kw.getD "default")))) := by
      unfold rlAdmit
      rw [if_pos (by omega)]
    simp [invoke_agent, rate_limit, hadm]

/-- C2, amended, witness: with an empty window, the composed call is
admitted and contained. -/
theorem c2_amended_witness :
    ∃ v, (invoke_agent 60 backendOk rlZero 0 "hi" "s" none).1 = Except.ok v ∧
      (v = Handled.errObj "Invalid input" 400 ∨
       v = Handled.errObj "An internal error occurred" 500 ∨
       ∃ r, v = Handled.ok r) :=
  (c2_amended 60 backendOk rlZero 0 "hi" "s" none).1 (by decide)

/-! ## Claim C1: exception text in the 500 path -/

def backendNoCompletion : Backend := fun _ _ => Except.ok ⟨none⟩

def fetchEmpty : Fetch := fun _ _ => none

def rlC1 : RLState := fun _ => []

def rlC1Full : RLState := fun _ => [0]

def ev0 : LambdaEvent := ⟨some (BodyVal.dict (some "hi") (some "s1"))⟩

/-- C1: the claim is violated by the code.  `lambda_handler`'s own
`except Exception` branch (`index.py` line 535) returns
`{"error": "An internal error occurred", "status": 500, "details": str(e)}`,
so every 500-path failure carries the internal exception's text in the
`details` field of the returned value: here the `MissingCompletion`
failure returns `details = "No completion found in response"` and a
rate-limit exhaustion returns `details = "Rate limit exceeded"`. -/
theorem c1_details_leak :
    (lambda_handler 60 backendNoCompletion fetchEmpty rlC1 0 ev0).1 =
      LambdaResult.failure "An internal error occurred" 500
        (some "No completion found in response") ∧
    (lambda_handler 1 backendOk fetchEmpty rlC1Full 0 ev0).1 =
      LambdaResult.failure "An internal error occurred" 500
        (some "Rate limit exceeded") := by
  exact ⟨by decide, by decide⟩

end CnaGuru
